import Mathlib

/-!
Shallow embedding of the phonebook repository's normalized contact store and
search layer.

The definitions below are translated from
`src/zustand-phonebook/src/store/contactStore.ts` (whose synchronous actions
coincide, case by case, with the Jotai actions in
`src/jotai-phonebook/src/store/actions.ts` and the Valtio actions in
`src/valtio-phonebook/src/store/contactStore.ts` cited by the claims),
from `src/zustand-phonebook/src/store/searchStore.ts`, and from the shared
fuzzy-search service (`src/unnamed/part_007`).

Modelling conventions:
- a JavaScript object used as a map keyed by id is a function `String → Option _`;
- `Partial<Contact>` is a record of `Option`-wrapped fields and `Object.assign`
  is a field-by-field right-biased merge;
- JavaScript `Date` timestamps are natural numbers;
- the string-literal union types for phone/email kinds are plain strings;
- the third-party Fuse.js ranking call is an opaque function parameter
  (the spec treats it as an external black-box collaborator);
- the single-threaded event loop's timer queue for the deferred search is an
  explicit pending-task list with an event for running one queued callback.
-/

namespace Phonebook

/-- Structured contact name (`Name` in the repository's type definitions). -/
structure Name where
  first : String
  last : String
  middle : Option String := none
deriving DecidableEq

/-- Phone number entry (`PhoneNumber`); the kind enum is modelled as a string. -/
structure PhoneNumber where
  id : String
  number : String
  kind : String
  isPrimary : Bool
deriving DecidableEq

/-- Email entry (`Email`); the kind enum is modelled as a string. -/
structure Email where
  id : String
  address : String
  kind : String
  isPrimary : Bool
deriving DecidableEq

/-- Postal address (`Address`). -/
structure Address where
  street : String
  city : String
  state : String
  postalCode : String
  country : String
deriving DecidableEq

/-- Contact entity (`Contact` in the repository's type definitions). -/
structure Contact where
  id : String
  name : Name
  phones : List PhoneNumber
  emails : List Email
  address : Option Address := none
  company : Option String := none
  notes : Option String := none
  avatar : Option String := none
  groups : List String
  isFavorite : Bool
  createdAt : Nat := 0
  updatedAt : Nat := 0
deriving DecidableEq

/-- Contact group entity (`ContactGroup`). -/
structure ContactGroup where
  id : String
  name : String
  color : String
  icon : Option String := none
  createdAt : Nat := 0
  updatedAt : Nat := 0
deriving DecidableEq

/-- Embedding of `Partial<Contact>`: every field optionally present.  A field
that is `none` is absent from the update payload; a field that is `some v`
is present and will overwrite the stored value under `Object.assign`. -/
structure ContactPatch where
  id : Option String := none
  name : Option Name := none
  phones : Option (List PhoneNumber) := none
  emails : Option (List Email) := none
  address : Option (Option Address) := none
  company : Option (Option String) := none
  notes : Option (Option String) := none
  avatar : Option (Option String) := none
  groups : Option (List String) := none
  isFavorite : Option Bool := none
  createdAt : Option Nat := none
  updatedAt : Option Nat := none
deriving DecidableEq

/-- Embedding of `Object.assign(contact, updates)`: right-biased merge of a
`Partial<Contact>` payload into a stored contact, field by field.  Note that
a payload carrying an `id` field overwrites the stored identifier, exactly as
`Object.assign` does in the source. -/
def mergeContact (c : Contact) (p : ContactPatch) : Contact :=
  { id := p.id.getD c.id
    name := p.name.getD c.name
    phones := p.phones.getD c.phones
    emails := p.emails.getD c.emails
    address := p.address.getD c.address
    company := p.company.getD c.company
    notes := p.notes.getD c.notes
    avatar := p.avatar.getD c.avatar
    groups := p.groups.getD c.groups
    isFavorite := p.isFavorite.getD c.isFavorite
    createdAt := p.createdAt.getD c.createdAt
    updatedAt := p.updatedAt.getD c.updatedAt }

/-- Embedding of `Partial<ContactGroup>`. -/
structure GroupPatch where
  id : Option String := none
  name : Option String := none
  color : Option String := none
  icon : Option (Option String) := none
  createdAt : Option Nat := none
  updatedAt : Option Nat := none
deriving DecidableEq

/-- Right-biased merge of a `Partial<ContactGroup>` payload into a group. -/
def mergeGroup (g : ContactGroup) (p : GroupPatch) : ContactGroup :=
  { id := p.id.getD g.id
    name := p.name.getD g.name
    color := p.color.getD g.color
    icon := p.icon.getD g.icon
    createdAt := p.createdAt.getD g.createdAt
    updatedAt := p.updatedAt.getD g.updatedAt }

/-- View of a full contact as an update payload with every field present;
used for `saveContact`, which passes the server's full returned contact to
`updateContact` as the `Partial<Contact>` argument. -/
def Contact.toPatch (c : Contact) : ContactPatch :=
  { id := some c.id
    name := some c.name
    phones := some c.phones
    emails := some c.emails
    address := some c.address
    company := some c.company
    notes := some c.notes
    avatar := some c.avatar
    groups := some c.groups
    isFavorite := some c.isFavorite
    createdAt := some c.createdAt
    updatedAt := some c.updatedAt }

/-- Store state of the contact store (`ContactState` in the source): the
normalized entity map, the group map, the derived favorites id list, and the
loading/error status fields. -/
@[ext]
structure ContactState where
  contacts : String → Option Contact
  groups : String → Option ContactGroup
  favorites : List String
  loading : Bool
  error : Option String

/-- Insertion into an object-as-map: `m[k] = v`. -/
def mapInsert {α : Type} (m : String → Option α) (k : String) (v : α) :
    String → Option α :=
  fun j => if j = k then some v else m j

/-- Deletion from an object-as-map: `delete m[k]`. -/
def mapRemove {α : Type} (m : String → Option α) (k : String) :
    String → Option α :=
  fun j => if j = k then none else m j

/-- Initial store state: empty maps, empty favorites, not loading, no error. -/
def initialState : ContactState :=
  { contacts := fun _ => none
    groups := fun _ => none
    favorites := []
    loading := false
    error := none }

/-- Accumulator pass of `setContacts`: for each incoming contact, insert it
into the map being built and, when it is flagged favorite, push its id onto
the favorites list being built (the `contacts.forEach` loop of the source). -/
def setContactsFold (cs : List Contact)
    (acc : (String → Option Contact) × List String) :
    (String → Option Contact) × List String :=
  cs.foldl
    (fun acc c =>
      (mapInsert acc.1 c.id c,
       if c.isFavorite then acc.2 ++ [c.id] else acc.2))
    acc

/-- `setContacts` (contactStore.ts lines 51-62): clears the entity map and the
favorites list, then scans the input, inserting each contact (later duplicate
ids overwrite earlier ones) and pushing each favorite-flagged contact's id. -/
def setContacts (cs : List Contact) (s : ContactState) : ContactState :=
  let p := setContactsFold cs (fun _ => none, [])
  { s with contacts := p.1, favorites := p.2 }

/-- `addContact` (contactStore.ts lines 64-71): upsert at the contact's own id;
appends the id to favorites only when the contact is a favorite and the id is
not already listed.  It never removes a stale favorites entry. -/
def addContact (c : Contact) (s : ContactState) : ContactState :=
  { s with
    contacts := mapInsert s.contacts c.id c
    favorites :=
      if c.isFavorite ∧ c.id ∉ s.favorites then s.favorites ++ [c.id]
      else s.favorites }

/-- `updateContact` (contactStore.ts lines 73-89): if the id is absent this is
a no-op; otherwise merge the payload into the stored contact and reconcile the
favorites list in both directions against the merged favorite flag. -/
def updateContact (id : String) (p : ContactPatch) (s : ContactState) :
    ContactState :=
  match s.contacts id with
  | none => s
  | some c =>
    let c' := mergeContact c p
    let favs :=
      if c'.isFavorite ∧ id ∉ s.favorites then s.favorites ++ [id]
      else if ¬ (c'.isFavorite = true) ∧ id ∈ s.favorites then
        s.favorites.filter (fun j => j ≠ id)
      else s.favorites
    { s with contacts := mapInsert s.contacts id c', favorites := favs }

/-- `deleteContact` (contactStore.ts lines 91-96): delete the map entry and
filter the id out of favorites (both unconditional). -/
def deleteContact (id : String) (s : ContactState) : ContactState :=
  { s with
    contacts := mapRemove s.contacts id
    favorites := s.favorites.filter (fun j => j ≠ id) }

/-- `toggleFavorite` (contactStore.ts lines 98-113): if the id is absent this
is a no-op; otherwise flip the flag and reconcile the favorites list. -/
def toggleFavorite (id : String) (s : ContactState) : ContactState :=
  match s.contacts id with
  | none => s
  | some c =>
    let c' := { c with isFavorite := !c.isFavorite }
    let favs :=
      if c'.isFavorite then
        if id ∈ s.favorites then s.favorites else s.favorites ++ [id]
      else s.favorites.filter (fun j => j ≠ id)
    { s with contacts := mapInsert s.contacts id c', favorites := favs }

/-- `setGroups` (contactStore.ts lines 178-185): rebuild the group map. -/
def setGroups (gs : List ContactGroup) (s : ContactState) : ContactState :=
  { s with groups := gs.foldl (fun m g => mapInsert m g.id g) (fun _ => none) }

/-- `addGroup` (contactStore.ts lines 187-191). -/
def addGroup (g : ContactGroup) (s : ContactState) : ContactState :=
  { s with groups := mapInsert s.groups g.id g }

/-- `updateGroup` (contactStore.ts lines 193-199): merge when present. -/
def updateGroup (id : String) (p : GroupPatch) (s : ContactState) :
    ContactState :=
  match s.groups id with
  | none => s
  | some g => { s with groups := mapInsert s.groups id (mergeGroup g p) }

/-- `deleteGroup` (contactStore.ts lines 206-214): delete the group map entry
and filter the deleted group id out of every stored contact's membership list
(the `Object.values(state.contacts).forEach` loop of the source). -/
def deleteGroup (id : String) (s : ContactState) : ContactState :=
  { s with
    groups := mapRemove s.groups id
    contacts := fun j =>
      (s.contacts j).map
        (fun c => { c with groups := c.groups.filter (fun gid => gid ≠ id) }) }

/-- `clearError` (contactStore.ts lines 225-229). -/
def clearError (s : ContactState) : ContactState :=
  { s with error := none }

/-- `reset` (contactStore.ts lines 231-239): back to the initial state. -/
def reset (_ : ContactState) : ContactState :=
  initialState

/-- `setLoading` of the Valtio variant (also the inline immer loading writes
of the zustand async actions). -/
def setLoadingFlag (b : Bool) (s : ContactState) : ContactState :=
  { s with loading := b }

/-- `setError` of the Valtio variant (also the inline immer error writes of
the zustand async actions). -/
def setErrorMsg (e : Option String) (s : ContactState) : ContactState :=
  { s with error := e }

/-- One synchronous store operation; the constructors cover every synchronous
action exposed by the contact store (the async gateway actions below compose
these with the error/loading writes, so every state the program can put the
store in is reachable through a list of these operations). -/
inductive Op where
  | setAll (cs : List Contact)
  | upsert (c : Contact)
  | update (id : String) (p : ContactPatch)
  | remove (id : String)
  | toggle (id : String)
  | groupSetAll (gs : List ContactGroup)
  | groupAdd (g : ContactGroup)
  | groupUpdate (id : String) (p : GroupPatch)
  | groupRemove (id : String)
  | loadFlag (b : Bool)
  | errorMsg (e : Option String)
  | errorClear
  | storeReset

/-- Interpretation of one operation as the corresponding store action. -/
def Op.apply : Op → ContactState → ContactState
  | .setAll cs, s => setContacts cs s
  | .upsert c, s => addContact c s
  | .update id p, s => updateContact id p s
  | .remove id, s => deleteContact id s
  | .toggle id, s => toggleFavorite id s
  | .groupSetAll gs, s => setGroups gs s
  | .groupAdd g, s => addGroup g s
  | .groupUpdate id p, s => updateGroup id p s
  | .groupRemove id, s => deleteGroup id s
  | .loadFlag b, s => setLoadingFlag b s
  | .errorMsg e, s => setErrorMsg e s
  | .errorClear, s => clearError s
  | .storeReset, s => reset s

/-- Running a list of operations in order. -/
def runOps (ops : List Op) (s : ContactState) : ContactState :=
  ops.foldl (fun s op => op.apply s) s

/-- A store state the program can actually be in: reachable from the initial
state by some sequence of store operations. -/
def Reachable (s : ContactState) : Prop :=
  ∃ ops : List Op, runOps ops initialState = s

/-- The entity-CRUD operations named by the favorites-invariant claim:
upsert (`addContact`), update (`updateContact`), toggle (`toggleFavorite`)
and remove (`deleteContact`). -/
inductive CrudOp where
  | upsert (c : Contact)
  | update (id : String) (p : ContactPatch)
  | toggle (id : String)
  | remove (id : String)

/-- Interpretation of an entity-CRUD operation. -/
def CrudOp.apply : CrudOp → ContactState → ContactState
  | .upsert c, s => addContact c s
  | .update id p, s => updateContact id p s
  | .toggle id, s => toggleFavorite id s
  | .remove id, s => deleteContact id s

/-- Running a list of entity-CRUD operations in order. -/
def crudRun (ops : List CrudOp) (s : ContactState) : ContactState :=
  ops.foldl (fun s op => op.apply s) s

/-- Guard under which one CRUD operation preserves the favorites invariant:
an upsert must not overwrite an id currently on the favorites list with a
non-favorite entity (the reconciliation `addContact` is missing); the other
three operations reconcile by themselves and need no guard. -/
def crudGuard : CrudOp → ContactState → Bool
  | .upsert c, s => c.isFavorite || !(s.favorites.contains c.id)
  | _, _ => true

/-- A run in which every CRUD operation satisfies its guard at the state it
executes in. -/
def crudGuardedRun : List CrudOp → ContactState → Bool
  | [], _ => true
  | op :: rest, s => crudGuard op s && crudGuardedRun rest (op.apply s)

/-- The favorites/flag consistency invariant of the spec: the favorites list
has no duplicates and holds exactly the keys of the map whose entity has the
favorite flag set. -/
def FavInv (s : ContactState) : Prop :=
  s.favorites.Nodup ∧
    ∀ id, id ∈ s.favorites ↔
      ∃ c, s.contacts id = some c ∧ c.isFavorite = true

/-- Every id on the favorites list keys an entity present in the map.  This
weaker invariant holds in every reachable state, even across the unguarded
upsert path. -/
def FavsInDom (s : ContactState) : Prop :=
  ∀ id, id ∈ s.favorites → (s.contacts id).isSome = true

/-- The entity stored under a key carries that key as its id field. -/
def KeyInv (s : ContactState) : Prop :=
  ∀ k c, s.contacts k = some c → c.id = k

/-- An operation whose update payload (if any) does not smuggle in a foreign
identifier: `update id p` must have `p.id` absent or equal to the target id. -/
def Op.idSafe : Op → Bool
  | .update id p => p.id == none || p.id == some id
  | _ => true

/-- The optional filter block of `SearchContactsRequest`
(`filters?: { groups?: string[]; favorites?: boolean }`). -/
structure RequestFilters where
  groups : Option (List String) := none
  favorites : Option Bool := none
deriving DecidableEq

/-- Embedding of `SearchContactsRequest`: query text plus optional filters,
optional page size and optional offset. -/
structure SearchContactsRequest where
  query : String
  filters : Option RequestFilters := none
  limit : Option Nat := none
  offset : Option Nat := none
deriving DecidableEq

/-- JavaScript falsy-coalescing `x || d` on an optional number: `undefined`
and `0` both fall through to the default. -/
def jsOrNat (o : Option Nat) (d : Nat) : Nat :=
  match o with
  | none => d
  | some n => if n = 0 then d else n

/-- JavaScript `Array.prototype.slice(from, to)` on a list with
`to = from + len`: drop `from` elements, then take `len`. -/
def slicePage {α : Type} (l : List α) (from_ len : Nat) : List α :=
  (l.drop from_).take len

/-- JavaScript `String.prototype.trim()`: strip leading and trailing
whitespace (modelled on the underlying character list, so that it computes by
kernel reduction). -/
def trimString (s : String) : String :=
  ⟨((s.data.dropWhile Char.isWhitespace).reverse.dropWhile
      Char.isWhitespace).reverse⟩

/-- The group-membership filter of `searchService.searchContacts`: applied
only when the request carries a non-empty `filters.groups` array; keeps the
contacts having at least one membership in that array. -/
def applyGroupFilter (cs : List Contact) (r : SearchContactsRequest) :
    List Contact :=
  match r.filters with
  | none => cs
  | some f =>
    match f.groups with
    | none => cs
    | some gl =>
      if gl = [] then cs
      else cs.filter (fun c => c.groups.any (fun g => gl.contains g))

/-- The favorites filter of `searchService.searchContacts`: applied only when
the request carries a truthy `filters.favorites`. -/
def applyFavoritesFilter (cs : List Contact) (r : SearchContactsRequest) :
    List Contact :=
  match r.filters with
  | none => cs
  | some f => if f.favorites = some true then cs.filter (fun c => c.isFavorite) else cs

/-- Both filter stages of `searchService.searchContacts`, in source order. -/
def filteredContacts (cs : List Contact) (r : SearchContactsRequest) :
    List Contact :=
  applyFavoritesFilter (applyGroupFilter cs r) r

/-- The ordering used by the empty-query branch of the search service:
`a.name.last.localeCompare(b.name.last)`, modelled as ordinal (code-point)
comparison of the surname strings. -/
def lastNameLe (a b : Contact) : Prop :=
  a.name.last ≤ b.name.last

instance : DecidableRel lastNameLe := fun a b =>
  inferInstanceAs (Decidable (a.name.last ≤ b.name.last))

instance : IsTotal Contact lastNameLe :=
  ⟨fun a b => le_total a.name.last b.name.last⟩

instance : IsTrans Contact lastNameLe :=
  ⟨fun _ _ _ h h' => le_trans h h'⟩

/-- `searchService.searchContacts` (`src/unnamed/part_007` lines 17-46):
apply the group and favorites filters; when the trimmed query is empty,
sort the filtered set by surname and slice it by offset/limit (with the
JavaScript falsy defaults 0 and 50); otherwise hand the filtered set to the
Fuse.js ranking (the opaque `fuse` parameter, an external collaborator) and
slice its output the same way.  The in-place stable `.sort` of the source is
modelled by a stable sorting function. -/
def searchContacts (fuse : List Contact → String → List Contact)
    (cs : List Contact) (r : SearchContactsRequest) : List Contact :=
  let filtered := filteredContacts cs r
  let off := jsOrNat r.offset 0
  let lim := jsOrNat r.limit 50
  if trimString r.query = "" then
    slicePage (List.insertionSort lastNameLe filtered) off lim
  else
    slicePage (fuse filtered r.query) off lim

/-- The search store's filter state (`SearchFilters`): a group id array and a
favorites-only flag (both always present at the store level). -/
structure StoreFilters where
  groups : List String
  favorites : Bool
deriving DecidableEq

/-- Conversion from the store-level filters to the request-level optional
filter block (a `SearchFilters` value passed where the optional
`SearchContactsRequest.filters` is expected has both fields present). -/
def StoreFilters.toRequest (f : StoreFilters) : RequestFilters :=
  { groups := some f.groups, favorites := some f.favorites }

/-- A deferred search computation queued by the `setTimeout` in
`searchStore.searchContacts`: it captures the contact list, query text and
filters that were current when the search was started. -/
structure SearchTask where
  contacts : List Contact
  query : String
  filters : StoreFilters
deriving DecidableEq

/-- State of the zustand search store (`SearchState`), together with the
event loop's queue of pending deferred search completions, in issue order. -/
structure SearchStoreState where
  query : String
  filters : StoreFilters
  results : List Contact
  isSearching : Bool
  pending : List SearchTask
deriving DecidableEq

/-- Initial search store state. -/
def initialSearchState : SearchStoreState :=
  { query := ""
    filters := { groups := [], favorites := false }
    results := []
    isSearching := false
    pending := [] }

/-- One event against the search store: a `setQuery` call, a
`searchContacts` call (which snapshots the current query/filters, sets the
searching flag, and queues a deferred completion), or the event loop running
the queued completion at a given queue position (which recomputes results for
the values the completion captured and writes them unconditionally). -/
inductive SearchEvent where
  | setQuery (q : String)
  | search (contacts : List Contact)
  | completeAt (i : Nat)

/-- Interpretation of one search store event
(`searchStore.searchContacts`, lines 80-99 of searchStore.ts). -/
def searchStep (fuse : List Contact → String → List Contact) :
    SearchEvent → SearchStoreState → SearchStoreState
  | .setQuery q, s => { s with query := q }
  | .search cs, s =>
    { s with
      isSearching := true
      pending := s.pending ++ [{ contacts := cs, query := s.query, filters := s.filters }] }
  | .completeAt i, s =>
    match s.pending[i]? with
    | none => s
    | some t =>
      { s with
        results := searchContacts fuse t.contacts
          { query := t.query, filters := some t.filters.toRequest }
        isSearching := false
        pending := s.pending.eraseIdx i }

/-- Running a list of search store events in order. -/
def searchRun (fuse : List Contact → String → List Contact)
    (evs : List SearchEvent) (s : SearchStoreState) : SearchStoreState :=
  evs.foldl (fun s e => searchStep fuse e s) s

/-- Outcome of a remote call observed by the async gateway: either a payload
or a thrown value, the latter being a JavaScript `Error` with a message or
some other thrown value (the `error instanceof Error` test of the source). -/
inductive ApiFailure where
  | jsError (message : String)
  | thrownValue
deriving DecidableEq

/-- The error string the gateway stores:
`error instanceof Error ? error.message : fallback`. -/
def failureText (e : ApiFailure) (fallback : String) : String :=
  match e with
  | .jsError m => m
  | .thrownValue => fallback

/-- `fetchContacts` (contactStore.ts lines 116-134) as a function of the
remote call's outcome: set loading and clear the error, then on success run
`setContacts` on the payload, on failure record the message; either way clear
loading in the `finally` block.  The codomain is a plain state: no failure
crosses this function. -/
def fetchContacts (s : ContactState)
    (result : Except ApiFailure (List Contact)) : ContactState :=
  let s1 := setErrorMsg none (setLoadingFlag true s)
  match result with
  | .ok data => setLoadingFlag false (setContacts data s1)
  | .error e =>
    setLoadingFlag false
      (setErrorMsg (some (failureText e "Failed to fetch contacts")) s1)

/-- `createContact` (contactStore.ts lines 136-153) as a function of the
remote call's outcome: on success upsert the server's returned contact; on
failure record the message and re-raise the original error (the second
component of the result). -/
def createContact (s : ContactState) (result : Except ApiFailure Contact) :
    ContactState × Except ApiFailure Unit :=
  match result with
  | .ok c => (addContact c s, .ok ())
  | .error e =>
    (setErrorMsg (some (failureText e "Failed to create contact")) s, .error e)

/-- `saveContact` (contactStore.ts lines 155-169): on success merge the
server's returned contact into the entry at the contact's id; on failure
record the message and re-raise. -/
def saveContact (s : ContactState) (c : Contact)
    (result : Except ApiFailure Contact) :
    ContactState × Except ApiFailure Unit :=
  match result with
  | .ok r => (updateContact c.id r.toPatch s, .ok ())
  | .error e =>
    (setErrorMsg (some (failureText e "Failed to save contact")) s, .error e)

/-- `removeContact` (contactStore.ts lines 171-182): on success delete the
entry; on failure record the message and re-raise. -/
def removeContact (s : ContactState) (id : String)
    (result : Except ApiFailure Unit) :
    ContactState × Except ApiFailure Unit :=
  match result with
  | .ok _ => (deleteContact id s, .ok ())
  | .error e =>
    (setErrorMsg (some (failureText e "Failed to delete contact")) s, .error e)

/-- `fetchGroups` (contactStore.ts lines 216-223): on success run
`setGroups`; on failure record the message.  No loading writes and no
re-raise; the codomain is a plain state. -/
def fetchGroups (s : ContactState)
    (result : Except ApiFailure (List ContactGroup)) : ContactState :=
  match result with
  | .ok data => setGroups data s
  | .error e => setErrorMsg (some (failureText e "Failed to fetch groups")) s

/-- Sample contact used by concrete runs: favorite, id "1". -/
def sampleFav : Contact :=
  { id := "1"
    name := { first := "Ada", last := "Lovelace" }
    phones := []
    emails := []
    groups := []
    isFavorite := true }

/-- The same id "1" re-sent without the favorite flag. -/
def sampleNotFav : Contact :=
  { sampleFav with isFavorite := false }


theorem favInv_addContact {s : ContactState} {c : Contact}
    (h : FavInv s) (hg : c.isFavorite = true ∨ c.id ∉ s.favorites) :
    FavInv (addContact c s) := by
  obtain ⟨hnd, hmem⟩ := h
  by_cases hin : c.id ∈ s.favorites
  · have hcond : ¬ (c.isFavorite = true ∧ c.id ∉ s.favorites) := fun h' => h'.2 hin
    have hfav : c.isFavorite = true := hg.resolve_right (fun h' => h' hin)
    constructor
    · simpa [addContact, hcond] using hnd
    · intro id
      by_cases hid : id = c.id
      · subst hid
        simp [addContact, hcond, mapInsert, hin, hfav]
      · simp [addContact, hcond, mapInsert, hid, hmem id]
  · by_cases hfav : c.isFavorite = true
    · have hcond : c.isFavorite = true ∧ c.id ∉ s.favorites := ⟨hfav, hin⟩
      constructor
      · simp only [addContact, if_pos hcond]
        simp [List.nodup_append, hnd, hin]
      · intro id
        by_cases hid : id = c.id
        · subst hid
          simp [addContact, hcond, mapInsert, hfav]
        · simp [addContact, hcond, mapInsert, hid, hmem id]
    · have hcond : ¬ (c.isFavorite = true ∧ c.id ∉ s.favorites) := fun h' => hfav h'.1
      constructor
      · simpa [addContact, hcond] using hnd
      · intro id
        by_cases hid : id = c.id
        · subst hid
          simp [addContact, hcond, mapInsert, hin, hfav]
        · simp [addContact, hcond, mapInsert, hid, hmem id]

theorem favInv_deleteContact {s : ContactState} (h : FavInv s) (id : String) :
    FavInv (deleteContact id s) := by
  obtain ⟨hnd, hmem⟩ := h
  constructor
  · exact hnd.filter _
  · intro j
    by_cases hj : j = id
    · subst hj
      simp [deleteContact, mapRemove, List.mem_filter]
    · simp [deleteContact, mapRemove, List.mem_filter, hj, hmem j]

theorem favInv_updateContact {s : ContactState} (h : FavInv s)
    (id : String) (p : ContactPatch) :
    FavInv (updateContact id p s) := by
  obtain ⟨hnd, hmem⟩ := h
  cases hc : s.contacts id with
  | none => exact ⟨by simp [updateContact, hc, hnd], by simp [updateContact, hc, hmem]⟩
  | some c =>
    cases hfav : (mergeContact c p).isFavorite with
    | true =>
      by_cases hin : id ∈ s.favorites
      · refine ⟨by simpa [updateContact, hc, hfav, hin] using hnd, ?_⟩
        intro j
        by_cases hj : j = id
        · subst hj; simp [updateContact, hc, hfav, hin, mapInsert]
        · simp [updateContact, hc, hfav, hin, mapInsert, hj, hmem j]
      · refine ⟨?_, ?_⟩
        · simp only [updateContact, hc]
          simp [hfav, hin, List.nodup_append, hnd]
        · intro j
          by_cases hj : j = id
          · subst hj; simp [updateContact, hc, hfav, hin, mapInsert]
          · simp [updateContact, hc, hfav, hin, mapInsert, hj, hmem j]
    | false =>
      by_cases hin : id ∈ s.favorites
      · refine ⟨?_, ?_⟩
        · simp only [updateContact, hc]
          simp only [hfav, hin]
          simpa using hnd.filter _
        · intro j
          by_cases hj : j = id
          · subst hj; simp [updateContact, hc, hfav, hin, mapInsert, List.mem_filter]
          · simp [updateContact, hc, hfav, hin, mapInsert, List.mem_filter, hj, hmem j]
      · refine ⟨by simpa [updateContact, hc, hfav, hin] using hnd, ?_⟩
        intro j
        by_cases hj : j = id
        · subst hj; simp [updateContact, hc, hfav, hin, mapInsert]
        · simp [updateContact, hc, hfav, hin, mapInsert, hj, hmem j]

theorem favInv_toggleFavorite {s : ContactState} (h : FavInv s) (id : String) :
    FavInv (toggleFavorite id s) := by
  obtain ⟨hnd, hmem⟩ := h
  cases hc : s.contacts id with
  | none => exact ⟨by simp [toggleFavorite, hc, hnd], by simp [toggleFavorite, hc, hmem]⟩
  | some c =>
    by_cases hfav : c.isFavorite = true
    · -- flag flips to false: favorites filtered
      constructor
      · simp only [toggleFavorite, hc, hfav]
        simpa using hnd.filter _
      · intro j
        by_cases hj : j = id
        · subst hj
          simp [toggleFavorite, hc, hfav, mapInsert, List.mem_filter]
        · simp [toggleFavorite, hc, hfav, mapInsert, List.mem_filter, hj, hmem j]
    · -- flag flips to true
      have hfx : c.isFavorite = false := by
        cases hfb : c.isFavorite
        · rfl
        · exact absurd hfb hfav
      by_cases hin : id ∈ s.favorites
      · constructor
        · simpa [toggleFavorite, hc, hfx, hin] using hnd
        · intro j
          by_cases hj : j = id
          · subst hj
            simp [toggleFavorite, hc, hfx, hin, mapInsert]
          · simp [toggleFavorite, hc, hfx, hin, mapInsert, hj, hmem j]
      · constructor
        · simp only [toggleFavorite, hc, hfx]
          simp [List.nodup_append, hnd, hin]
        · intro j
          by_cases hj : j = id
          · subst hj
            simp [toggleFavorite, hc, hfx, hin, mapInsert]
          · simp [toggleFavorite, hc, hfx, hin, mapInsert, hj, hmem j]


theorem favInv_initialState : FavInv initialState := by
  refine ⟨List.nodup_nil, ?_⟩
  intro id
  simp [initialState]

theorem favInv_crudStep {s : ContactState} {op : CrudOp}
    (h : FavInv s) (hg : crudGuard op s = true) : FavInv (op.apply s) := by
  cases op with
  | upsert c =>
    refine favInv_addContact h ?_
    rcases Bool.or_eq_true_iff.mp hg with h1 | h1
    · exact Or.inl h1
    · refine Or.inr ?_
      simpa using h1
  | update id p => exact favInv_updateContact h id p
  | toggle id => exact favInv_toggleFavorite h id
  | remove id => exact favInv_deleteContact h id

theorem favInv_crudRun :
    ∀ (ops : List CrudOp) (s : ContactState), FavInv s →
      crudGuardedRun ops s = true → FavInv (crudRun ops s) := by
  intro ops
  induction ops with
  | nil => intro s h _; exact h
  | cons op rest ih =>
    intro s h hg
    obtain ⟨hg1, hg2⟩ := Bool.and_eq_true_iff.mp hg
    exact ih (op.apply s) (favInv_crudStep h hg1) hg2

/-- C1 (amended): for every sequence of upsert (`addContact`), update
(`updateContact`), `toggleFavorite` and remove (`deleteContact`) calls
starting from the empty store in which no upsert overwrites an id currently
on the favorites list with a non-favorite entity, the favorites list contains
exactly the identifiers keying entities of the map whose favorite flag is
true, with no duplicates and no omissions.  The guard is necessary: the
upsert path only ever appends to favorites and never reconciles removal
(see the counterexample). -/
theorem c1_favorites_invariant_guarded (ops : List CrudOp)
    (hg : crudGuardedRun ops initialState = true) :
    FavInv (crudRun ops initialState) :=
  favInv_crudRun ops initialState favInv_initialState hg

/-- C1 counterexample: upserting favorite contact "1" and then upserting a
non-favorite entity over the same id leaves "1" stranded on the favorites
list while the mapped entity's favorite flag is false, so the claimed
invariant fails for this two-step upsert sequence. -/
theorem c1_counterexample :
    ¬ FavInv (crudRun [CrudOp.upsert sampleFav, CrudOp.upsert sampleNotFav]
        initialState) := by
  intro h
  obtain ⟨-, hmem⟩ := h
  have h1 : "1" ∈ (crudRun [CrudOp.upsert sampleFav, CrudOp.upsert sampleNotFav]
      initialState).favorites := by decide
  obtain ⟨c, hc, hfav⟩ := (hmem "1").mp h1
  have hc2 : (crudRun [CrudOp.upsert sampleFav, CrudOp.upsert sampleNotFav]
      initialState).contacts "1" = some sampleNotFav := rfl
  obtain rfl : c = sampleNotFav := Option.some.inj (hc.symm.trans hc2)
  simp [sampleNotFav, sampleFav] at hfav

/-- C1 witness: a concrete guarded run (upsert a favorite, toggle it) on
which the guarded invariant theorem applies. -/
theorem c1_favorites_invariant_guarded_witness :
    FavInv (crudRun [CrudOp.upsert sampleFav, CrudOp.toggle "1"] initialState) :=
  c1_favorites_invariant_guarded [CrudOp.upsert sampleFav, CrudOp.toggle "1"]
    (by decide)


theorem setContactsFold_dom :
    ∀ (cs : List Contact) (acc : (String → Option Contact) × List String),
      (∀ id, id ∈ acc.2 → (acc.1 id).isSome = true) →
      ∀ id, id ∈ (setContactsFold cs acc).2 →
        ((setContactsFold cs acc).1 id).isSome = true := by
  intro cs
  induction cs with
  | nil => intro acc h; simpa [setContactsFold] using h
  | cons c rest ih =>
    intro acc h
    have step : setContactsFold (c :: rest) acc =
        setContactsFold rest
          (mapInsert acc.1 c.id c,
           if c.isFavorite then acc.2 ++ [c.id] else acc.2) := rfl
    rw [step]
    apply ih
    intro id hid
    simp only [Op.apply] at hid ⊢
    by_cases hic : id = c.id
    · subst hic; simp [mapInsert]
    · simp only [mapInsert]
      simp only [if_neg hic]
      apply h
      cases hf : c.isFavorite with
      | true =>
        simp [hf] at hid
        rcases hid with h1 | h1
        · exact h1
        · exact absurd h1 hic
      | false => simpa [hf] using hid

theorem favsInDom_step (op : Op) {s : ContactState} (h : FavsInDom s) :
    FavsInDom (op.apply s) := by
  unfold FavsInDom
  cases op with
  | setAll cs =>
    intro id hid
    simp only [Op.apply] at hid ⊢
    exact setContactsFold_dom cs (fun _ => none, []) (by simp) id hid
  | upsert c =>
    intro id hid
    simp only [Op.apply] at hid ⊢
    by_cases hic : id = c.id
    · subst hic; simp [addContact, mapInsert]
    · simp only [addContact, mapInsert]
      simp only [if_neg hic]
      apply h
      by_cases hcond : c.isFavorite = true ∧ c.id ∉ s.favorites
      · simp [addContact, hcond] at hid
        rcases hid with h1 | h1
        · exact h1
        · exact absurd h1 hic
      · simpa [addContact, hcond] using hid
  | update tid p =>
    intro id hid
    simp only [Op.apply] at hid ⊢
    cases hc : s.contacts tid with
    | none => simpa [updateContact, hc] using h id (by simpa [updateContact, hc] using hid)
    | some c =>
      by_cases hit : id = tid
      · subst hit; simp [updateContact, hc, mapInsert]
      · simp only [updateContact, hc, mapInsert]
        simp only [if_neg hit]
        apply h
        simp only [updateContact, hc] at hid
        cases hf : (mergeContact c p).isFavorite with
        | true =>
          by_cases hin : tid ∈ s.favorites
          · simpa [hf, hin] using hid
          · simp [hf, hin] at hid
            rcases hid with h2 | h2
            · exact h2
            · exact absurd h2 hit
        | false =>
          by_cases hin : tid ∈ s.favorites
          · simp [hf, hin, List.mem_filter] at hid
            exact hid.1
          · simpa [hf, hin] using hid
  | remove tid =>
    intro id hid
    simp only [Op.apply] at hid ⊢
    simp only [deleteContact] at hid
    have h2 := List.mem_filter.mp hid
    have hit : ¬ id = tid := by simpa using h2.2
    simp only [deleteContact, mapRemove]
    simp only [if_neg hit]
    exact h id h2.1
  | toggle tid =>
    intro id hid
    simp only [Op.apply] at hid ⊢
    cases hc : s.contacts tid with
    | none => simpa [toggleFavorite, hc] using h id (by simpa [toggleFavorite, hc] using hid)
    | some c =>
      by_cases hit : id = tid
      · subst hit; simp [toggleFavorite, hc, mapInsert]
      · simp only [toggleFavorite, hc, mapInsert]
        simp only [if_neg hit]
        apply h
        simp only [toggleFavorite, hc] at hid
        cases hf : c.isFavorite with
        | true =>
          simp [hf] at hid
          exact hid.1
        | false =>
          by_cases hin : tid ∈ s.favorites
          · simpa [hf, hin] using hid
          · simp [hf, hin] at hid
            rcases hid with h1 | h1
            · exact h1
            · exact absurd h1 hit
  | groupSetAll gs => intro id hid; simpa [setGroups] using h id hid
  | groupAdd g => intro id hid; simpa [addGroup] using h id hid
  | groupUpdate gid p =>
    intro id hid
    simp only [Op.apply] at hid ⊢
    cases hg : s.groups gid with
    | none => simpa [updateGroup, hg] using h id (by simpa [updateGroup, hg] using hid)
    | some g => simpa [updateGroup, hg] using h id (by simpa [updateGroup, hg] using hid)
  | groupRemove gid =>
    intro id hid
    simp only [Op.apply] at hid ⊢
    simp only [deleteGroup] at hid ⊢
    have := h id hid
    simp [Option.isSome_map, this]
  | loadFlag b => intro id hid; simpa [setLoadingFlag] using h id hid
  | errorMsg e => intro id hid; simpa [setErrorMsg] using h id hid
  | errorClear => intro id hid; simpa [clearError] using h id hid
  | storeReset => intro id hid; simp [Op.apply, reset, initialState] at hid

theorem reachable_favsInDom {s : ContactState} (h : Reachable s) :
    FavsInDom s := by
  obtain ⟨ops, rfl⟩ := h
  have main : ∀ (ops : List Op) (s0 : ContactState), FavsInDom s0 →
      FavsInDom (runOps ops s0) := by
    intro ops
    induction ops with
    | nil => intro s0 h0; exact h0
    | cons op rest ih => intro s0 h0; exact ih (op.apply s0) (favsInDom_step op h0)
  exact main ops initialState (by intro id hid; simp [initialState] at hid)

/-- C3: on every reachable store state (every state the program can put the
store in), calling `updateContact`, `deleteContact` or `toggleFavorite` with
an id absent from the entity map returns the state unchanged in every field
(entity map, group map, favorites, loading, error); the operations are total
functions, so no exception is raised. -/
theorem c3_unknown_id_noop {s : ContactState} (hs : Reachable s) (id : String)
    (p : ContactPatch) (h : s.contacts id = none) :
    updateContact id p s = s ∧ deleteContact id s = s ∧
      toggleFavorite id s = s := by
  have hdom := reachable_favsInDom hs
  have hnot : id ∉ s.favorites := by
    intro hin
    have := hdom id hin
    simp [h] at this
  refine ⟨by simp [updateContact, h], ?_, by simp [toggleFavorite, h]⟩
  have hmap : mapRemove s.contacts id = s.contacts := by
    funext j
    by_cases hj : j = id
    · subst hj; simp [mapRemove, h]
    · simp [mapRemove, hj]
  have hfavs : s.favorites.filter (fun j => j ≠ id) = s.favorites := by
    refine List.filter_eq_self.mpr ?_
    intro a ha
    simp only [decide_eq_true_eq]
    intro heq
    exact hnot (heq ▸ ha)
  exact ContactState.ext hmap rfl hfavs rfl rfl

/-- C3 witness: the empty store is reachable, id "x" is absent from it, and
all three operations leave it unchanged. -/
theorem c3_unknown_id_noop_witness :
    updateContact "x" {} initialState = initialState ∧
      deleteContact "x" initialState = initialState ∧
      toggleFavorite "x" initialState = initialState :=
  c3_unknown_id_noop ⟨[], rfl⟩ "x" {} rfl


/-- Sample contact in group "g1", used as a concrete witness input. -/
def sampleGrouped : Contact :=
  { id := "3"
    name := { first := "Grace", last := "Hopper" }
    phones := []
    emails := []
    groups := ["g1", "g2"]
    isFavorite := false }

/-- C6: `deleteGroup g` removes `g` from the group map, rewrites every stored
entity to one whose membership list is the old list with `g` filtered out (so
no remaining entity's membership list contains `g` and every other entity
field is unchanged), and leaves the favorites list, the loading flag, the
error field and every other group entry unchanged. -/
theorem c6_deleteGroup_cascade (s : ContactState) (g k : String) (c : Contact)
    (hc : s.contacts k = some c) :
    (deleteGroup g s).groups g = none ∧
    (deleteGroup g s).contacts k =
      some { c with groups := c.groups.filter (fun gid => gid ≠ g) } ∧
    (∀ c', (deleteGroup g s).contacts k = some c' → g ∉ c'.groups) ∧
    (deleteGroup g s).favorites = s.favorites ∧
    (deleteGroup g s).loading = s.loading ∧
    (deleteGroup g s).error = s.error ∧
    (∀ j, j ≠ g → (deleteGroup g s).groups j = s.groups j) := by
  refine ⟨by simp [deleteGroup, mapRemove], by simp [deleteGroup, hc], ?_,
    rfl, rfl, rfl, ?_⟩
  · intro c' hc'
    simp [deleteGroup, hc] at hc'
    subst hc'
    simp [List.mem_filter]
  · intro j hj
    simp [deleteGroup, mapRemove, hj]

/-- C6 witness: deleting group "g1" from a store holding a contact with
memberships ["g1", "g2"]. -/
theorem c6_deleteGroup_cascade_witness :
    (deleteGroup "g1" (addContact sampleGrouped initialState)).groups "g1" = none ∧
    (deleteGroup "g1" (addContact sampleGrouped initialState)).contacts "3" =
      some { sampleGrouped with
              groups := sampleGrouped.groups.filter (fun gid => gid ≠ "g1") } ∧
    (∀ c', (deleteGroup "g1" (addContact sampleGrouped initialState)).contacts "3" =
        some c' → "g1" ∉ c'.groups) ∧
    (deleteGroup "g1" (addContact sampleGrouped initialState)).favorites =
      (addContact sampleGrouped initialState).favorites ∧
    (deleteGroup "g1" (addContact sampleGrouped initialState)).loading =
      (addContact sampleGrouped initialState).loading ∧
    (deleteGroup "g1" (addContact sampleGrouped initialState)).error =
      (addContact sampleGrouped initialState).error ∧
    (∀ j, j ≠ "g1" →
      (deleteGroup "g1" (addContact sampleGrouped initialState)).groups j =
        (addContact sampleGrouped initialState).groups j) :=
  c6_deleteGroup_cascade (addContact sampleGrouped initialState) "g1" "3"
    sampleGrouped rfl

/-- C7: when the remote call fails, every gateway operation records the
human-readable message (the thrown Error's message, or the operation's
fallback text) in the store's error field; the fetch operations return a
plain state — their codomain shows that no failure crosses the gateway and
`fetchContacts` additionally clears the loading flag in its finally block —
while the mutating operations also return the original error to the caller. -/
theorem c7_gateway_failure (s : ContactState) (e : ApiFailure) (c : Contact)
    (id : String) :
    (fetchContacts s (.error e)).error =
      some (failureText e "Failed to fetch contacts") ∧
    (fetchContacts s (.error e)).loading = false ∧
    (fetchGroups s (.error e)).error =
      some (failureText e "Failed to fetch groups") ∧
    (createContact s (.error e)).2 = .error e ∧
    (createContact s (.error e)).1.error =
      some (failureText e "Failed to create contact") ∧
    (saveContact s c (.error e)).2 = .error e ∧
    (saveContact s c (.error e)).1.error =
      some (failureText e "Failed to save contact") ∧
    (removeContact s id (.error e)).2 = .error e ∧
    (removeContact s id (.error e)).1.error =
      some (failureText e "Failed to delete contact") :=
  ⟨rfl, rfl, rfl, rfl, rfl, rfl, rfl, rfl, rfl⟩


/-- A reachable store state on which the map entry at "1" is present but the
favorites list disagrees with its flag (built through the unguarded upsert
path). -/
def staleFavState : ContactState :=
  addContact sampleNotFav (addContact sampleFav initialState)

/-- C8 counterexample: on the reachable state `staleFavState` the id "1" is
present in the map, yet toggling the favorite twice empties the favorites
list that originally contained "1": the favorites membership is not
restored.  (The first toggle makes the entity a favorite while "1" is
already — wrongly — listed, so nothing is appended; the second toggle
removes it.) -/
theorem c8_counterexample :
    Reachable staleFavState ∧
    (staleFavState.contacts "1").isSome = true ∧
    staleFavState.favorites = ["1"] ∧
    (toggleFavorite "1" (toggleFavorite "1" staleFavState)).favorites = [] :=
  ⟨⟨[Op.upsert sampleFav, Op.upsert sampleNotFav], rfl⟩, rfl, rfl, by decide⟩

/-- C8 (amended): on every store state with the id present in the entity
map, toggling twice restores the entity map exactly — so in particular the
favorite flag returns to its original value, with no side condition; and it
restores the favorites-list membership provided the state is consistent at
that id (the id is listed exactly when the entity's flag is true), a side
condition the unguarded upsert path can violate and that the counterexample
shows is needed for the membership half only. -/
theorem c8_toggle_involution (s : ContactState) (id : String) (c : Contact)
    (hc : s.contacts id = some c) :
    (toggleFavorite id (toggleFavorite id s)).contacts = s.contacts ∧
    ((id ∈ s.favorites ↔ c.isFavorite = true) →
      ∀ j, (j ∈ (toggleFavorite id (toggleFavorite id s)).favorites ↔
        j ∈ s.favorites)) := by
  cases hf : c.isFavorite with
  | true =>
    have hcc : ({ c with isFavorite := true } : Contact) = c := by rw [← hf]
    have h1 : toggleFavorite id s =
        { s with
            contacts := mapInsert s.contacts id { c with isFavorite := false }
            favorites := s.favorites.filter (fun j => j ≠ id) } := by
      simp [toggleFavorite, hc, hf]
    have hnotin1 : id ∉ s.favorites.filter (fun j => j ≠ id) := by
      simp [List.mem_filter]
    have h2 : toggleFavorite id (toggleFavorite id s) =
        { s with
            contacts := mapInsert
              (mapInsert s.contacts id { c with isFavorite := false }) id
              { c with isFavorite := true }
            favorites := s.favorites.filter (fun j => j ≠ id) ++ [id] } := by
      rw [h1]
      simp [toggleFavorite, mapInsert, hnotin1]
    constructor
    · rw [h2]
      funext j
      by_cases hj : j = id
      · subst hj
        simp [mapInsert, hc, hcc]
      · simp [mapInsert, hj]
    · intro hcons j
      have hin : id ∈ s.favorites := hcons.mpr rfl
      rw [h2]
      simp only [List.mem_append, List.mem_filter, List.mem_singleton,
        decide_eq_true_eq]
      constructor
      · rintro (⟨hj, -⟩ | rfl)
        · exact hj
        · exact hin
      · intro hj
        by_cases hji : j = id
        · exact Or.inr hji
        · exact Or.inl ⟨hj, hji⟩
  | false =>
    have hcc : ({ c with isFavorite := false } : Contact) = c := by rw [← hf]
    by_cases hin : id ∈ s.favorites
    · -- the inconsistent case: the entity is not a favorite, yet the id is
      -- listed, so the first toggle appends nothing and the second filters
      -- the id out; the map is still restored exactly.
      have h1 : toggleFavorite id s =
          { s with
              contacts := mapInsert s.contacts id { c with isFavorite := true }
              favorites := s.favorites } := by
        simp [toggleFavorite, hc, hf, hin]
      have h2 : toggleFavorite id (toggleFavorite id s) =
          { s with
              contacts := mapInsert
                (mapInsert s.contacts id { c with isFavorite := true }) id
                { c with isFavorite := false }
              favorites := s.favorites.filter (fun j => j ≠ id) } := by
        rw [h1]
        simp [toggleFavorite, mapInsert]
      refine ⟨?_, ?_⟩
      · rw [h2]
        funext j
        by_cases hj : j = id
        · subst hj
          simp [mapInsert, hc, hcc]
        · simp [mapInsert, hj]
      · intro hcons j
        have h' := hcons.mp hin
        simp at h'
    · have h1 : toggleFavorite id s =
          { s with
              contacts := mapInsert s.contacts id { c with isFavorite := true }
              favorites := s.favorites ++ [id] } := by
        simp [toggleFavorite, hc, hf, hin]
      have h2 : toggleFavorite id (toggleFavorite id s) =
          { s with
              contacts := mapInsert
                (mapInsert s.contacts id { c with isFavorite := true }) id
                { c with isFavorite := false }
              favorites := (s.favorites ++ [id]).filter (fun j => j ≠ id) } := by
        rw [h1]
        simp [toggleFavorite, mapInsert]
      have hfavs : (s.favorites ++ [id]).filter (fun j => j ≠ id) =
          s.favorites := by
        rw [List.filter_append]
        have hl : s.favorites.filter (fun j => j ≠ id) = s.favorites := by
          refine List.filter_eq_self.mpr ?_
          intro a ha
          simp only [decide_eq_true_eq]
          intro heq
          exact hin (heq ▸ ha)
        have hr : ([id] : List String).filter (fun j => j ≠ id) = [] := by simp
        rw [hl, hr, List.append_nil]
      refine ⟨?_, ?_⟩
      · rw [h2]
        funext j
        by_cases hj : j = id
        · subst hj
          simp [mapInsert, hc, hcc]
        · simp [mapInsert, hj]
      · intro hcons j
        rw [h2, hfavs]

/-- C8 witness: the favorite contact "1" inserted through the upsert path —
the id is present, the double toggle restores the map, and the consistency
side condition holds, so the favorites membership is restored too. -/
theorem c8_toggle_involution_witness :
    (toggleFavorite "1" (toggleFavorite "1" (addContact sampleFav
        initialState))).contacts = (addContact sampleFav initialState).contacts ∧
    ((("1" ∈ (addContact sampleFav initialState).favorites) ↔
        sampleFav.isFavorite = true) →
      ∀ j, (j ∈ (toggleFavorite "1" (toggleFavorite "1" (addContact sampleFav
          initialState))).favorites ↔
        j ∈ (addContact sampleFav initialState).favorites)) :=
  c8_toggle_involution (addContact sampleFav initialState) "1" sampleFav rfl


theorem setContactsFold_key :
    ∀ (cs : List Contact) (acc : (String → Option Contact) × List String),
      (∀ k c, acc.1 k = some c → c.id = k) →
      ∀ k c, (setContactsFold cs acc).1 k = some c → c.id = k := by
  intro cs
  induction cs with
  | nil => intro acc h; simpa [setContactsFold] using h
  | cons c rest ih =>
    intro acc h
    have step : setContactsFold (c :: rest) acc =
        setContactsFold rest
          (mapInsert acc.1 c.id c,
           if c.isFavorite then acc.2 ++ [c.id] else acc.2) := rfl
    rw [step]
    apply ih
    intro k c0 hk
    by_cases hkc : k = c.id
    · subst hkc
      simp [mapInsert] at hk
      subst hk
      rfl
    · simp [mapInsert, hkc] at hk
      exact h k c0 hk

theorem keyInv_step {s : ContactState} (op : Op) (h : KeyInv s)
    (hsafe : op.idSafe = true) : KeyInv (op.apply s) := by
  cases op with
  | setAll cs =>
    intro k c hk
    exact setContactsFold_key cs (fun _ => none, []) (by simp) k c hk
  | upsert c =>
    intro k c0 hk
    simp only [Op.apply, addContact, mapInsert] at hk
    by_cases hkc : k = c.id
    · subst hkc
      simp at hk
      subst hk
      rfl
    · simp [hkc] at hk
      exact h k c0 hk
  | update tid p =>
    intro k c0 hk
    simp only [Op.apply] at hk
    cases hc : s.contacts tid with
    | none =>
      rw [updateContact, hc] at hk
      exact h k c0 hk
    | some c =>
      rw [updateContact, hc] at hk
      simp only [mapInsert] at hk
      by_cases hkt : k = tid
      · subst hkt
        simp at hk
        have hid : c.id = k := h k c hc
        have hpid : p.id = none ∨ p.id = some k := by
          simp only [Op.idSafe] at hsafe
          rcases Bool.or_eq_true_iff.mp hsafe with h1 | h1
          · exact Or.inl (by simpa using h1)
          · exact Or.inr (by simpa using h1)
        subst hk
        rcases hpid with h1 | h1 <;> simp [mergeContact, h1, hid]
      · simp [hkt] at hk
        exact h k c0 hk
  | remove tid =>
    intro k c0 hk
    simp only [Op.apply, deleteContact, mapRemove] at hk
    by_cases hkt : k = tid
    · simp [hkt] at hk
    · simp [hkt] at hk
      exact h k c0 hk
  | toggle tid =>
    intro k c0 hk
    simp only [Op.apply] at hk
    cases hc : s.contacts tid with
    | none =>
      rw [toggleFavorite, hc] at hk
      exact h k c0 hk
    | some c =>
      rw [toggleFavorite, hc] at hk
      simp only [mapInsert] at hk
      by_cases hkt : k = tid
      · subst hkt
        simp at hk
        have hid : c.id = k := h k c hc
        subst hk
        simpa using hid
      · simp [hkt] at hk
        exact h k c0 hk
  | groupSetAll gs => intro k c0 hk; exact h k c0 (by simpa [Op.apply, setGroups] using hk)
  | groupAdd g => intro k c0 hk; exact h k c0 (by simpa [Op.apply, addGroup] using hk)
  | groupUpdate gid p =>
    intro k c0 hk
    simp only [Op.apply] at hk
    cases hg : s.groups gid with
    | none => rw [updateGroup, hg] at hk; exact h k c0 hk
    | some g => rw [updateGroup, hg] at hk; exact h k c0 hk
  | groupRemove gid =>
    intro k c0 hk
    simp only [Op.apply, deleteGroup, Option.map_eq_some'] at hk
    obtain ⟨c1, hc1, rfl⟩ := hk
    simpa using h k c1 hc1
  | loadFlag b => intro k c0 hk; exact h k c0 (by simpa [Op.apply, setLoadingFlag] using hk)
  | errorMsg e => intro k c0 hk; exact h k c0 (by simpa [Op.apply, setErrorMsg] using hk)
  | errorClear => intro k c0 hk; exact h k c0 (by simpa [Op.apply, clearError] using hk)
  | storeReset => intro k c0 hk; simp [Op.apply, reset, initialState] at hk

/-- Update payload that overwrites the stored identifier, used by the C5
counterexample. -/
def idPatch : ContactPatch := { id := some "2" }

/-- C5 counterexample: the entity stored under key "1" has id "1"; after
`updateContact "1" ⟨id := "2"⟩` the entity stored under the same key carries
id "2" — `Object.assign` merges an `id` field like any other, so an update
payload can mutate the stored identifier. -/
theorem c5_counterexample :
    ((addContact sampleFav initialState).contacts "1").map Contact.id =
      some "1" ∧
    ((updateContact "1" idPatch (addContact sampleFav initialState)).contacts
        "1").map Contact.id = some "2" :=
  ⟨rfl, rfl⟩

/-- C5 (amended): along every operation sequence from the empty store in
which update payloads never carry an id different from the target key, every
stored entity's id field equals its key — so an entity's identifier never
changes while it is stored.  The restriction is necessary: an update payload
whose id field differs from the target key overwrites the stored identifier
(see the counterexample). -/
theorem c5_id_immutable (ops : List Op) (hsafe : ops.all Op.idSafe = true) :
    KeyInv (runOps ops initialState) := by
  have main : ∀ (ops : List Op) (s0 : ContactState), KeyInv s0 →
      ops.all Op.idSafe = true → KeyInv (runOps ops s0) := by
    intro ops
    induction ops with
    | nil => intro s0 h0 _; exact h0
    | cons op rest ih =>
      intro s0 h0 hall
      rw [List.all_cons] at hall
      obtain ⟨h1, h2⟩ := Bool.and_eq_true_iff.mp hall
      exact ih (op.apply s0) (keyInv_step op h0 h1) h2
  exact main ops initialState (by intro k c hk; simp [initialState] at hk) hsafe

/-- C5 witness: a concrete id-safe run (an upsert followed by an update whose
payload has no id field). -/
theorem c5_id_immutable_witness :
    KeyInv (runOps [Op.upsert sampleFav,
      Op.update "1" { company := some (some "Acme") }] initialState) :=
  c5_id_immutable
    [Op.upsert sampleFav, Op.update "1" { company := some (some "Acme") }]
    (by decide)

theorem setContactsFold_lookup :
    ∀ (cs : List Contact) (acc : (String → Option Contact) × List String)
      (k : String),
      (setContactsFold cs acc).1 k =
        (cs.reverse.find? (fun c => c.id == k)).or (acc.1 k) := by
  intro cs
  induction cs with
  | nil => intro acc k; simp [setContactsFold]
  | cons c rest ih =>
    intro acc k
    have step : setContactsFold (c :: rest) acc =
        setContactsFold rest
          (mapInsert acc.1 c.id c,
           if c.isFavorite then acc.2 ++ [c.id] else acc.2) := rfl
    rw [step, ih]
    rw [List.reverse_cons, List.find?_append]
    rw [Option.or_assoc]
    congr 1
    by_cases hk : c.id = k
    · simp [mapInsert, List.find?, hk]
    · have hk' : ¬ k = c.id := fun h => hk h.symm
      have hbeq : (c.id == k) = false := beq_eq_false_iff_ne.mpr hk
      simp [mapInsert, List.find?, hbeq, hk']

theorem setContactsFold_favs :
    ∀ (cs : List Contact) (acc : (String → Option Contact) × List String),
      (setContactsFold cs acc).2 =
        acc.2 ++ (cs.filter (fun c => c.isFavorite)).map (fun c => c.id) := by
  intro cs
  induction cs with
  | nil => intro acc; simp [setContactsFold]
  | cons c rest ih =>
    intro acc
    have step : setContactsFold (c :: rest) acc =
        setContactsFold rest
          (mapInsert acc.1 c.id c,
           if c.isFavorite then acc.2 ++ [c.id] else acc.2) := rfl
    rw [step, ih]
    cases hf : c.isFavorite with
    | true => simp [hf, List.filter_cons, List.append_assoc]
    | false => simp [hf, List.filter_cons]

theorem find?_reverse_of_nodup :
    ∀ (cs : List Contact), (cs.map Contact.id).Nodup → ∀ (k : String),
      cs.reverse.find? (fun c => c.id == k) = cs.find? (fun c => c.id == k) := by
  intro cs
  induction cs with
  | nil => intro _ k; simp
  | cons c rest ih =>
    intro hnd k
    rw [List.map_cons, List.nodup_cons] at hnd
    obtain ⟨hcid, hnd'⟩ := hnd
    rw [List.reverse_cons, List.find?_append, ih hnd' k]
    by_cases hk : c.id = k
    · subst hk
      have hnone : rest.find? (fun c0 => c0.id == c.id) = none := by
        rw [List.find?_eq_none]
        intro x hx hpx
        exact hcid (List.mem_map.mpr ⟨x, hx, by simpa using hpx⟩)
      simp [hnone, List.find?]
    · have hbeq : (c.id == k) = false := beq_eq_false_iff_ne.mpr hk
      have hsingle : ([c] : List Contact).find? (fun c0 => c0.id == k) = none := by
        simp [List.find?, hbeq]
      rw [hsingle, Option.or_none]
      rw [List.find?_cons_of_neg _ (by simpa using hk)]

/-- C4 counterexample: `setContacts` over an input that repeats id "1" —
first as a favorite, then as a non-favorite — produces a map whose entry "1"
is the non-favorite last occurrence while the rebuilt favorites list still
contains "1": the favorites list is not consistent with the last-write-wins
map. -/
theorem c4_counterexample :
    (setContacts [sampleFav, sampleNotFav] initialState).favorites = ["1"] ∧
    (setContacts [sampleFav, sampleNotFav] initialState).contacts "1" =
      some sampleNotFav ∧
    sampleNotFav.isFavorite = false ∧
    ¬ FavInv (setContacts [sampleFav, sampleNotFav] initialState) := by
  refine ⟨rfl, rfl, rfl, ?_⟩
  intro h
  obtain ⟨-, hmem⟩ := h
  have h1 : "1" ∈ (setContacts [sampleFav, sampleNotFav]
      initialState).favorites := by decide
  obtain ⟨c, hc, hfav⟩ := (hmem "1").mp h1
  have hc2 : (setContacts [sampleFav, sampleNotFav] initialState).contacts "1" =
      some sampleNotFav := rfl
  obtain rfl : c = sampleNotFav := Option.some.inj (hc.symm.trans hc2)
  simp [sampleNotFav, sampleFav] at hfav

/-- C4 (amended): when the input's ids are pairwise distinct (for duplicated
ids only the map is last-write-wins while the favorites list keeps every
favorite occurrence, see the counterexample), `setContacts` replaces the
entity map so that looking up any key finds exactly the input entity with
that id (pre-existing entities are gone), and rebuilds the favorites list as
the ids of the favorite-flagged inputs, without duplicates and consistent
with the map. -/
theorem c4_setAll_replacement (cs : List Contact) (s : ContactState)
    (hnd : (cs.map Contact.id).Nodup) :
    (∀ k, (setContacts cs s).contacts k = cs.find? (fun c => c.id == k)) ∧
    (setContacts cs s).favorites =
      (cs.filter (fun c => c.isFavorite)).map (fun c => c.id) ∧
    FavInv (setContacts cs s) := by
  have hlook : ∀ k, (setContacts cs s).contacts k =
      cs.find? (fun c => c.id == k) := by
    intro k
    show (setContactsFold cs (fun _ => none, [])).1 k = _
    rw [setContactsFold_lookup]
    show (cs.reverse.find? (fun c => c.id == k)).or none = _
    rw [Option.or_none, find?_reverse_of_nodup cs hnd k]
  have hfavs : (setContacts cs s).favorites =
      (cs.filter (fun c => c.isFavorite)).map (fun c => c.id) := by
    show (setContactsFold cs (fun _ => none, [])).2 = _
    rw [setContactsFold_favs]
    simp
  refine ⟨hlook, hfavs, ?_, ?_⟩
  · rw [hfavs]
    have hsub : List.Sublist ((cs.filter (fun c => c.isFavorite)).map
        Contact.id) (cs.map Contact.id) :=
      List.Sublist.map _ (List.filter_sublist cs)
    exact List.Nodup.sublist hsub hnd
  · intro k
    rw [hfavs, hlook k]
    constructor
    · intro hk
      rw [List.mem_map] at hk
      obtain ⟨c, hcf, hcid⟩ := hk
      rw [List.mem_filter] at hcf
      obtain ⟨hcm, hcfav⟩ := hcf
      have hfind : cs.find? (fun c0 => c0.id == k) = some c := by
        cases hf : cs.find? (fun c0 => c0.id == k) with
        | none =>
          rw [List.find?_eq_none] at hf
          exact absurd (beq_iff_eq.mpr hcid) (hf c hcm)
        | some c' =>
          have hc'm := List.mem_of_find?_eq_some hf
          have hc'id : c'.id = k := by simpa using List.find?_some hf
          have : c' = c :=
            List.inj_on_of_nodup_map hnd hc'm hcm (by rw [hc'id, hcid])
          rw [this]
      rw [hfind]
      exact ⟨c, rfl, hcfav⟩
    · rintro ⟨c, hck, hcfav⟩
      have hcm := List.mem_of_find?_eq_some hck
      have hcid : c.id = k := by simpa using List.find?_some hck
      rw [List.mem_map]
      exact ⟨c, List.mem_filter.mpr ⟨hcm, hcfav⟩, hcid⟩

/-- Second sample contact with a distinct id, used for witnesses. -/
def sampleOther : Contact :=
  { id := "2"
    name := { first := "Alan", last := "Turing" }
    phones := []
    emails := []
    groups := []
    isFavorite := true }

/-- C4 witness: a duplicate-free input of one non-favorite and one favorite
contact. -/
theorem c4_setAll_replacement_witness :
    (∀ k, (setContacts [sampleNotFav, sampleOther] initialState).contacts k =
      List.find? (fun c => c.id == k) [sampleNotFav, sampleOther]) ∧
    (setContacts [sampleNotFav, sampleOther] initialState).favorites =
      ([sampleNotFav, sampleOther].filter (fun c => c.isFavorite)).map
        (fun c => c.id) ∧
    FavInv (setContacts [sampleNotFav, sampleOther] initialState) :=
  c4_setAll_replacement [sampleNotFav, sampleOther] initialState (by decide)


/-- C2: when the trimmed query is empty, the search returns a page of the
filtered set: there is a list L that is a permutation of the group/favorites
filtered contacts, sorted ascending by surname, such that the result is L
truncated to the page size (default 50 when the limit is absent) starting at
the offset (default 0 when absent); with no filter block the filtered set is
the whole input, and with both paging fields absent the result is exactly the
first 50 entries of L.  The source's `localeCompare` comparator is modelled
as case-sensitive ordinal (code-point) string comparison. -/
theorem c2_empty_query_search (fuse : List Contact → String → List Contact)
    (cs : List Contact) (r : SearchContactsRequest)
    (hq : trimString r.query = "") :
    ∃ L : List Contact,
      L.Perm (filteredContacts cs r) ∧
      List.Sorted lastNameLe L ∧
      searchContacts fuse cs r =
        (L.drop (jsOrNat r.offset 0)).take (jsOrNat r.limit 50) ∧
      (r.filters = none → L.Perm cs) ∧
      (r.offset = none → r.limit = none → searchContacts fuse cs r = L.take 50) := by
  refine ⟨List.insertionSort lastNameLe (filteredContacts cs r),
    List.perm_insertionSort lastNameLe (filteredContacts cs r),
    List.sorted_insertionSort lastNameLe (filteredContacts cs r), ?_, ?_, ?_⟩
  · simp [searchContacts, hq, slicePage]
  · intro hf
    have hflt : filteredContacts cs r = cs := by
      simp [filteredContacts, applyGroupFilter, applyFavoritesFilter, hf]
    rw [hflt]
    exact List.perm_insertionSort lastNameLe cs
  · intro hoff hlim
    simp [searchContacts, hq, slicePage, jsOrNat, hoff, hlim]

/-- C2 witness: the empty query over a two-contact list with no filters and
default paging. -/
theorem c2_empty_query_search_witness :
    ∃ L : List Contact,
      L.Perm (filteredContacts [sampleFav, sampleOther]
        { query := "" }) ∧
      List.Sorted lastNameLe L ∧
      searchContacts (fun _ _ => []) [sampleFav, sampleOther] { query := "" } =
        (L.drop (jsOrNat none 0)).take (jsOrNat none 50) ∧
      (({ query := "" } : SearchContactsRequest).filters = none → L.Perm
        [sampleFav, sampleOther]) ∧
      (({ query := "" } : SearchContactsRequest).offset = none →
        ({ query := "" } : SearchContactsRequest).limit = none →
        searchContacts (fun _ _ => []) [sampleFav, sampleOther] { query := "" } =
          L.take 50) :=
  c2_empty_query_search (fun _ _ => []) [sampleFav, sampleOther]
    { query := "" } rfl

/-- C10: because the source coalesces paging parameters with JavaScript
falsy-or (`request.limit || 50`, `request.offset || 0`), an explicit limit of
0 is indistinguishable from an absent limit: for every contact list, query,
filter block and offset the search returns the same (default 50-element)
page, so a caller cannot request zero results. -/
theorem c10_zero_limit_is_default (fuse : List Contact → String → List Contact)
    (cs : List Contact) (q : String) (fl : Option RequestFilters)
    (off : Option Nat) :
    searchContacts fuse cs
        { query := q, filters := fl, limit := some 0, offset := off } =
      searchContacts fuse cs
        { query := q, filters := fl, limit := none, offset := off } := by
  simp [searchContacts, filteredContacts, applyGroupFilter,
    applyFavoritesFilter, jsOrNat]


/-- One plausible behaviour of the black-box Fuse collaborator, used only to
build the concrete stale-overwrite run: exact match on the first name. -/
def firstNameMatch : List Contact → String → List Contact :=
  fun cs q => cs.filter (fun c => c.name.first == q)

/-- Contact whose first name is "alice". -/
def aliceContact : Contact :=
  { id := "a"
    name := { first := "alice", last := "Austen" }
    phones := []
    emails := []
    groups := []
    isFavorite := false }

/-- Contact whose first name is "bob". -/
def bobContact : Contact :=
  { id := "b"
    name := { first := "bob", last := "Beamon" }
    phones := []
    emails := []
    groups := []
    isFavorite := false }

/-- The stale-overwrite run: set the query to "alice" and start a search,
then set it to "bob" and start a second search; the event loop then happens
to run the second search's deferred completion before the first one. -/
def staleRunEvents : List SearchEvent :=
  [SearchEvent.setQuery "alice",
   SearchEvent.search [aliceContact, bobContact],
   SearchEvent.setQuery "bob",
   SearchEvent.search [aliceContact, bobContact],
   SearchEvent.completeAt 1,
   SearchEvent.completeAt 0]

/-- C9 counterexample: the deferred search completion writes its results
unconditionally — there is no token or query-identity check — so under the
interleaving `staleRunEvents` the completion computed for the superseded
query "alice" runs last and overwrites the results computed for "bob": the
final state has query "bob" but results `[aliceContact]`, not the
`[bobContact]` the search service returns for "bob". -/
theorem c9_counterexample :
    (searchRun firstNameMatch staleRunEvents initialSearchState).query =
      "bob" ∧
    (searchRun firstNameMatch staleRunEvents initialSearchState).results =
      [aliceContact] ∧
    searchContacts firstNameMatch [aliceContact, bobContact]
        { query := "bob",
          filters := some (StoreFilters.toRequest
            { groups := [], favorites := false }) } = [bobContact] ∧
    aliceContact ≠ bobContact := by
  refine ⟨rfl, by decide, by decide, by decide⟩

/-- C9 (amended): the store has no stale-response guard, so the final results
are those of the last completion the event loop runs, whichever query it
captured; only when the deferred completions run in the order the searches
were started — as equal-delay timers do on a single-threaded event loop —
do the results for the later query text win.  This theorem states the
in-issue-order case: for every fuse behaviour, contact list, pair of queries
and filters, running both completions in FIFO order leaves exactly the
second query's results (and the second query text) in the store. -/
theorem c9_fifo_completion_order (fuse : List Contact → String → List Contact)
    (cs : List Contact) (q1 q2 : String) (fl : StoreFilters) :
    (searchRun fuse
        [SearchEvent.setQuery q1, SearchEvent.search cs,
         SearchEvent.setQuery q2, SearchEvent.search cs,
         SearchEvent.completeAt 0, SearchEvent.completeAt 0]
        { initialSearchState with filters := fl }).results =
      searchContacts fuse cs
        { query := q2, filters := some fl.toRequest } ∧
    (searchRun fuse
        [SearchEvent.setQuery q1, SearchEvent.search cs,
         SearchEvent.setQuery q2, SearchEvent.search cs,
         SearchEvent.completeAt 0, SearchEvent.completeAt 0]
        { initialSearchState with filters := fl }).query = q2 := by
  constructor <;> rfl

end Phonebook


